import Mathlib

/-!
Verification of the LogTide JavaScript SDK core against its specification.

The TypeScript sources are shallowly embedded: classes become structures,
methods become pure functions threading the state explicitly, `Date.now()`
becomes an explicit `now : Int` argument, JavaScript strings are modelled as
`String` or `List Char`, and the inner transport of the batching layer is
modelled as an oracle `Nat → Bool` giving the success of each successive
inner-send invocation.  Fields and branch structure follow the sources in
`src/packages/core/src` and the batch-transport / error-serializer files.
-/

namespace Logtide

/-! ### Circuit breaker (src/packages/core/src/utils/circuit-breaker.ts)

`enum CircuitState { CLOSED, OPEN, HALF_OPEN }` and `class CircuitBreaker`
with fields `threshold`, `resetMs`, `state`, `failureCount`,
`lastFailureTime`.  Times are `Int` milliseconds; `lastFailureTime` is
`Option Int` for the `number | null` field, and the JavaScript truthiness
test `if (this.lastFailureTime && ...)` is modelled by the extra `t ≠ 0`
conjunct. -/

inductive CircuitState where
  | CLOSED : CircuitState
  | OPEN : CircuitState
  | HALF_OPEN : CircuitState
deriving DecidableEq, Repr

structure CircuitBreaker where
  threshold : Nat
  resetMs : Int
  state : CircuitState
  failureCount : Nat
  lastFailureTime : Option Int
deriving DecidableEq, Repr

/-- The constructor: `new CircuitBreaker(threshold, resetMs)`. -/
def mkBreaker (threshold : Nat) (resetMs : Int) : CircuitBreaker :=
  { threshold := threshold, resetMs := resetMs, state := CircuitState.CLOSED
    failureCount := 0, lastFailureTime := none }

/-- `recordSuccess(): { this.failureCount = 0; this.state = CLOSED; }` -/
def CircuitBreaker.recordSuccess (cb : CircuitBreaker) : CircuitBreaker :=
  { cb with failureCount := 0, state := CircuitState.CLOSED }

/-- `recordFailure()`: increment the counter, stamp `lastFailureTime = Date.now()`,
and open the circuit when the counter reaches the threshold. -/
def CircuitBreaker.recordFailure (now : Int) (cb : CircuitBreaker) : CircuitBreaker :=
  { cb with
      failureCount := cb.failureCount + 1
      lastFailureTime := some now
      state := if cb.threshold ≤ cb.failureCount + 1 then CircuitState.OPEN else cb.state }

/-- `canAttempt()`: CLOSED always allows; OPEN allows (and moves to HALF_OPEN)
once `now - lastFailureTime >= resetMs` with a truthy `lastFailureTime`;
HALF_OPEN allows one attempt.  Returns the boolean result together with the
updated breaker. -/
def CircuitBreaker.canAttempt (now : Int) (cb : CircuitBreaker) : Bool × CircuitBreaker :=
  match cb.state with
  | CircuitState.CLOSED => (true, cb)
  | CircuitState.OPEN =>
      match cb.lastFailureTime with
      | some t =>
          if t ≠ 0 ∧ cb.resetMs ≤ now - t then
            (true, { cb with state := CircuitState.HALF_OPEN })
          else (false, cb)
      | none => (false, cb)
  | CircuitState.HALF_OPEN => (true, cb)

/-- `getState()` returns the state's string name. -/
def CircuitBreaker.getState (cb : CircuitBreaker) : String :=
  match cb.state with
  | CircuitState.CLOSED => "CLOSED"
  | CircuitState.OPEN => "OPEN"
  | CircuitState.HALF_OPEN => "HALF_OPEN"

/-- A sequence of consecutive `recordFailure()` calls at the given times. -/
def applyFailures (ts : List Int) (cb : CircuitBreaker) : CircuitBreaker :=
  ts.foldl (fun c t => CircuitBreaker.recordFailure t c) cb

/-- One public operation on a circuit breaker, for the reachability relation. -/
inductive CBOp where
  | success : CBOp
  | failure : Int → CBOp
  | attempt : Int → CBOp

/-- The state transformer of a single public operation. -/
def CircuitBreaker.step (cb : CircuitBreaker) : CBOp → CircuitBreaker
  | CBOp.success => cb.recordSuccess
  | CBOp.failure now => CircuitBreaker.recordFailure now cb
  | CBOp.attempt now => (CircuitBreaker.canAttempt now cb).2

/-- A breaker state is reachable when some sequence of public operations
produces it from a freshly constructed breaker. -/
def ReachableCB (cb : CircuitBreaker) : Prop :=
  ∃ (threshold : Nat) (resetMs : Int) (ops : List CBOp),
    cb = ops.foldl CircuitBreaker.step (mkBreaker threshold resetMs)

/-! ### Breadcrumb buffer (src/packages/core/src/breadcrumb-buffer.ts) -/

structure BreadcrumbBuffer (β : Type) where
  maxSize : Nat
  buffer : List β
deriving DecidableEq

/-- `new BreadcrumbBuffer(maxSize)` starts empty (default `maxSize` is 100). -/
def BreadcrumbBuffer.empty (maxSize : Nat) : BreadcrumbBuffer β :=
  { maxSize := maxSize, buffer := [] }

/-- `add(b)`: `if (this.buffer.length >= this.maxSize) this.buffer.shift(); this.buffer.push(b);`
(`shift` on an empty array is a no-op, matching `List.tail`). -/
def BreadcrumbBuffer.add (buf : BreadcrumbBuffer β) (b : β) : BreadcrumbBuffer β :=
  { buf with
      buffer := (if buf.maxSize ≤ buf.buffer.length then buf.buffer.tail else buf.buffer) ++ [b] }

/-- `getAll()` returns a copy of the buffer contents in insertion order. -/
def BreadcrumbBuffer.getAll (buf : BreadcrumbBuffer β) : List β :=
  buf.buffer

/-! ### W3C trace context (src/packages/core/src/utils/w3c-trace-context.ts)

Headers are modelled as `List Char`.  The anchored pattern
`^([0-9a-f]{2})-([0-9a-f]{32})-([0-9a-f]{16})-([0-9a-f]{2})$` is embedded as a
positional parser consuming the fixed-width hex groups separated by dashes,
which matches the regular expression exactly because every character class in
it is fixed-width. -/

def isLowerHexDigit (c : Char) : Bool :=
  decide (('0' ≤ c ∧ c ≤ '9') ∨ ('a' ≤ c ∧ c ≤ 'f'))

/-- Value of one lowercase-hex digit. -/
def hexDigitVal (c : Char) : Nat :=
  if '0' ≤ c ∧ c ≤ '9' then c.toNat - '0'.toNat
  else if 'a' ≤ c ∧ c ≤ 'f' then c.toNat - 'a'.toNat + 10
  else 0

/-- `parseInt(s, 16)` on a lowercase-hex string. -/
def hexVal (l : List Char) : Nat :=
  l.foldl (fun acc c => acc * 16 + hexDigitVal c) 0

/-- The whitespace characters removed by `String.prototype.trim` (ASCII subset). -/
def isJsWhitespace (c : Char) : Bool :=
  c == ' ' || c == '\t' || c == '\n' || c == '\r' || c == '\x0B' || c == '\x0C'

/-- `header.trim()`. -/
def trimChars (l : List Char) : List Char :=
  ((l.dropWhile isJsWhitespace).reverse.dropWhile isJsWhitespace).reverse

structure TraceContext where
  version : List Char
  traceId : List Char
  parentSpanId : List Char
  sampled : Bool
deriving DecidableEq, Repr

/-- Consume exactly `n` lowercase-hex characters, like a `[0-9a-f]{n}` group. -/
def readHex : Nat → List Char → Option (List Char × List Char)
  | 0, rest => some ([], rest)
  | _ + 1, [] => none
  | n + 1, c :: rest =>
      if isLowerHexDigit c then
        match readHex n rest with
        | some (h, r) => some (c :: h, r)
        | none => none
      else none

/-- Consume a literal dash. -/
def expectDash : List Char → Option (List Char)
  | '-' :: rest => some rest
  | _ => none

/-- The regex match of `parseTraceparent` on the trimmed header; `sampled` is
`(parseInt(match[4], 16) & 0x01) === 1`. -/
def parseTraceparentTrimmed (l : List Char) : Option TraceContext :=
  match readHex 2 l with
  | none => none
  | some (v, l1) =>
  match expectDash l1 with
  | none => none
  | some l2 =>
  match readHex 32 l2 with
  | none => none
  | some (t, l3) =>
  match expectDash l3 with
  | none => none
  | some l4 =>
  match readHex 16 l4 with
  | none => none
  | some (p, l5) =>
  match expectDash l5 with
  | none => none
  | some l6 =>
  match readHex 2 l6 with
  | none => none
  | some (f, l7) =>
  if l7 = [] then
    some { version := v, traceId := t, parentSpanId := p,
           sampled := decide (hexVal f &&& 1 = 1) }
  else none

/-- `parseTraceparent(header)`: trim, then match the traceparent pattern. -/
def parseTraceparent (header : List Char) : Option TraceContext :=
  parseTraceparentTrimmed (trimChars header)

/-- `createTraceparent(traceId, spanId, sampled)` emits
`00-${traceId}-${spanId}-${flags}` with flags `01`/`00`. -/
def createTraceparent (traceId spanId : List Char) (sampled : Bool) : List Char :=
  '0' :: '0' :: '-' ::
    (traceId ++ '-' :: (spanId ++ '-' :: (cond sampled ['0', '1'] ['0', '0'])))

/-! ### Batching transport (src/unnamed/part_000, `class BatchTransport`)

Log entries and spans are abstract types `L` and `S`.  The inner transport is
modelled by an oracle `innerOk : Nat → Bool` giving the outcome of the n-th
inner-send invocation (counted across `sendLogs` and `sendSpans`), plus a flag
`hasSendSpans` for whether `inner.sendSpans` is implemented; the state records
every batch passed to the inner transport.  `Date.now()` is an explicit `now`
argument; retry backoff delays only consume wall-clock time and are not part
of the observable state. -/

structure BatchParams where
  batchSize : Nat
  maxBufferSize : Nat
  maxRetries : Nat
  cbThreshold : Nat
  cbResetMs : Int
  hasSendSpans : Bool

structure BTState (L S : Type) where
  logBuffer : List L
  spanBuffer : List S
  breaker : CircuitBreaker
  innerLogCalls : List (List L)
  innerSpanCalls : List (List S)
deriving DecidableEq

/-- The freshly constructed transport: empty buffers, fresh breaker, no calls. -/
def BTState.init {L S : Type} (p : BatchParams) : BTState L S :=
  { logBuffer := [], spanBuffer := [], breaker := mkBreaker p.cbThreshold p.cbResetMs,
    innerLogCalls := [], innerSpanCalls := [] }

/-- Total number of inner-send invocations made so far. -/
def BTState.invocations {L S : Type} (st : BTState L S) : Nat :=
  st.innerLogCalls.length + st.innerSpanCalls.length

/-- One iteration of the buffering loop in `sendLogs`/`sendSpans`: drop the new
item when the buffer is full, otherwise push it. -/
def bufferAppend (maxBufferSize : Nat) (buf : List α) (x : α) : List α :=
  if maxBufferSize ≤ buf.length then buf else buf ++ [x]

/-- The `for` loop of `sendWithRetry` applied to a log batch, with
`attemptsLeft` attempts remaining (`maxRetries + 1` at the start); after
exhausting all attempts it records one breaker failure. -/
def sendLogsRetryLoop {L S : Type} (innerOk : Nat → Bool) (now : Int) (batch : List L) :
    Nat → BTState L S → BTState L S
  | 0, st => { st with breaker := CircuitBreaker.recordFailure now st.breaker }
  | attemptsLeft + 1, st =>
      let st1 : BTState L S := { st with innerLogCalls := st.innerLogCalls ++ [batch] }
      if innerOk st.invocations then
        { st1 with breaker := st1.breaker.recordSuccess }
      else
        sendLogsRetryLoop innerOk now batch attemptsLeft st1

/-- The `for` loop of `sendWithRetry` applied to a span batch. -/
def sendSpansRetryLoop {L S : Type} (innerOk : Nat → Bool) (now : Int) (batch : List S) :
    Nat → BTState L S → BTState L S
  | 0, st => { st with breaker := CircuitBreaker.recordFailure now st.breaker }
  | attemptsLeft + 1, st =>
      let st1 : BTState L S := { st with innerSpanCalls := st.innerSpanCalls ++ [batch] }
      if innerOk st.invocations then
        { st1 with breaker := st1.breaker.recordSuccess }
      else
        sendSpansRetryLoop innerOk now batch attemptsLeft st1

/-- `flush()`: ask the breaker; when denied return with buffers untouched,
otherwise drain both buffers and send each non-empty batch (spans only when
`inner.sendSpans` exists). -/
def BatchTransport.flush {L S : Type} (p : BatchParams) (innerOk : Nat → Bool) (now : Int)
    (st : BTState L S) : BTState L S :=
  if (CircuitBreaker.canAttempt now st.breaker).1 then
    let st1 : BTState L S :=
      { st with logBuffer := [], spanBuffer := [],
                breaker := (CircuitBreaker.canAttempt now st.breaker).2 }
    let st2 : BTState L S :=
      if 0 < st.logBuffer.length then
        sendLogsRetryLoop innerOk now st.logBuffer (p.maxRetries + 1) st1
      else st1
    if 0 < st.spanBuffer.length ∧ p.hasSendSpans = true then
      sendSpansRetryLoop innerOk now st.spanBuffer (p.maxRetries + 1) st2
    else st2
  else { st with breaker := (CircuitBreaker.canAttempt now st.breaker).2 }

/-- `sendLogs(logs)`: buffer each entry (dropping when full), then auto-flush
when the buffer has reached `batchSize`. -/
def BatchTransport.sendLogs {L S : Type} (p : BatchParams) (innerOk : Nat → Bool) (now : Int)
    (entries : List L) (st : BTState L S) : BTState L S :=
  let st1 : BTState L S :=
    { st with logBuffer := entries.foldl (bufferAppend p.maxBufferSize) st.logBuffer }
  if p.batchSize ≤ st1.logBuffer.length then BatchTransport.flush p innerOk now st1 else st1

/-- `sendSpans(spans)`: same policy on the span buffer. -/
def BatchTransport.sendSpans {L S : Type} (p : BatchParams) (innerOk : Nat → Bool) (now : Int)
    (entries : List S) (st : BTState L S) : BTState L S :=
  let st1 : BTState L S :=
    { st with spanBuffer := entries.foldl (bufferAppend p.maxBufferSize) st.spanBuffer }
  if p.batchSize ≤ st1.spanBuffer.length then BatchTransport.flush p innerOk now st1 else st1

/-- The configuration of the §8 drop-newest example: `maxBufferSize = 2`, all
other options at their defaults. -/
def dropNewestParams : BatchParams :=
  { batchSize := 100, maxBufferSize := 2, maxRetries := 3, cbThreshold := 5,
    cbResetMs := 30000, hasSendSpans := true }

/-- A small `batchSize = 3` configuration used as a concrete C2 instance. -/
def batchThreeParams : BatchParams :=
  { batchSize := 3, maxBufferSize := 10, maxRetries := 3, cbThreshold := 5,
    cbResetMs := 30000, hasSendSpans := true }

/-! ### Scope and Hub (src/packages/core/src/hub.ts)

`hub.ts` is in the source snapshot; the `Scope` and `LogtideClient` classes it
imports (`./scope`, `./client`) are not, so they are modelled from the spec at
the granularity the Hub claims need. -/

/-- Modelled from the spec: `Scope` (its source file `scope.ts` is missing from
the snapshot).  §3/§4.1: a scope owns a 32-hex-char trace id and a bounded
breadcrumb sequence (the §4.2 buffer); only the parts the Hub claims need are
modelled. -/
structure Scope (β : Type) where
  traceId : List Char
  breadcrumbs : BreadcrumbBuffer β
deriving DecidableEq

/-- Modelled from the spec: `Scope.addBreadcrumb(b)` appends respecting the
bound (§4.1). -/
def Scope.addBreadcrumb {β : Type} (sc : Scope β) (b : β) : Scope β :=
  { sc with breadcrumbs := sc.breadcrumbs.add b }

/-- Modelled from the spec: `Scope.getBreadcrumbs()` returns a snapshot copy
(§4.1). -/
def Scope.getBreadcrumbs {β : Type} (sc : Scope β) : List β :=
  sc.breadcrumbs.getAll

/-- The Hub's state: at most one client plus the one global scope.  The client
class is missing from the snapshot, so a client is an abstract state `γ` and
the effect of each of its methods is an abstract function argument. -/
structure HubState (γ β : Type) where
  client : Option γ
  globalScope : Scope β
deriving DecidableEq

/-- `captureError(error, metadata?)`:
`this.client?.captureError(error, metadata, this.globalScope)` — optional
chaining makes it a no-op without a client. -/
def Hub.captureError {γ β ε : Type} (clientCapture : γ → ε → Scope β → γ)
    (st : HubState γ β) (e : ε) : HubState γ β :=
  match st.client with
  | none => st
  | some c => { st with client := some (clientCapture c e st.globalScope) }

/-- `captureLog(level, message, metadata?)`:
`this.client?.captureLog(level, message, metadata, this.globalScope)`. -/
def Hub.captureLog {γ β : Type} (clientLog : γ → String → String → Scope β → γ)
    (st : HubState γ β) (level message : String) : HubState γ β :=
  match st.client with
  | none => st
  | some c => { st with client := some (clientLog c level message st.globalScope) }

/-- `addBreadcrumb(b)`: unconditionally `this.globalScope.addBreadcrumb(b)`,
then `this.client?.addBreadcrumb(b)`. -/
def Hub.addBreadcrumb {γ β : Type} (clientAdd : γ → β → γ)
    (st : HubState γ β) (b : β) : HubState γ β :=
  { st with
      globalScope := st.globalScope.addBreadcrumb b
      client := st.client.map (fun c => clientAdd c b) }

/-! ### Error serializer (src/unnamed/part_001, `serializeError`)

Captured JavaScript values are modelled as an inductive type (the object graph
reachable from a captured value; `cause` chains are chains of such values).
`parseStackTrace`, `JSON.stringify` and `String(...)` are total
string-processing collaborators taken as parameters; the theorems hold for all
of them. -/

inductive JSValue where
  | error (name message : String) (stack : Option String)
      (cause : Option JSValue) (ownProps : List (String × JSValue)) : JSValue
  | str (s : String) : JSValue
  | obj (props : List (String × JSValue)) : JSValue
  | num (n : Int) : JSValue
  | bool (b : Bool) : JSValue
  | null : JSValue
  | undefined : JSValue

/-- JavaScript truthiness, for `if (error.cause)`. -/
def JSValue.truthy : JSValue → Bool
  | JSValue.error _ _ _ _ _ => true
  | JSValue.str s => s != ""
  | JSValue.obj _ => true
  | JSValue.num n => n != 0
  | JSValue.bool b => b
  | JSValue.null => false
  | JSValue.undefined => false

/-- Length of the (truthy) `cause` chain hanging off a value. -/
def JSValue.causeDepth : JSValue → Nat
  | JSValue.error _ _ _ (some c) _ => if c.truthy then c.causeDepth + 1 else 0
  | _ => 0

structure StructuredStackFrame where
  file : Option String
  function : Option String
  line : Option Nat
  column : Option Nat
deriving DecidableEq

/-- `StructuredException`, as an inductive type because `cause` nests
recursively. -/
inductive StructuredException where
  | mk (type message : String) (stacktrace : Option (List StructuredStackFrame))
      (language : Option String) (cause : Option StructuredException)
      (metadata : Option (List (String × JSValue))) (raw : Option String)
      : StructuredException

def StructuredException.type : StructuredException → String
  | StructuredException.mk t _ _ _ _ _ _ => t

def StructuredException.message : StructuredException → String
  | StructuredException.mk _ m _ _ _ _ _ => m

def StructuredException.cause : StructuredException → Option StructuredException
  | StructuredException.mk _ _ _ _ c _ _ => c

/-- Length of the serialized `cause` chain. -/
def StructuredException.causeDepth : StructuredException → Nat
  | StructuredException.mk _ _ _ _ (some c) _ _ => c.causeDepth + 1
  | StructuredException.mk _ _ _ _ none _ _ => 0

/-- Own-property lookup, `undefined` when absent. -/
def jsGet (k : String) (props : List (String × JSValue)) : JSValue :=
  match props.find? (fun kv => kv.1 == k) with
  | some kv => kv.2
  | none => JSValue.undefined

/-- `k in obj`, restricted to own properties. -/
def hasKey (k : String) (props : List (String × JSValue)) : Bool :=
  props.any (fun kv => kv.1 == k)

/-- JavaScript property assignment on an insertion-ordered object. -/
def setKey (k : String) (v : JSValue) (props : List (String × JSValue)) :
    List (String × JSValue) :=
  if hasKey k props then props.map (fun kv => if kv.1 == k then (k, v) else kv)
  else props ++ [(k, v)]

/-- The `errorMetadata` block of the `Error` branch: own enumerable properties
minus the standard ones, plus `code` when `'code' in error`. -/
def errorMetadata (ownProps : List (String × JSValue)) : List (String × JSValue) :=
  let standardProps := ["name", "message", "stack", "cause"]
  let em := ownProps.filter (fun kv => !(standardProps.contains kv.1))
  if hasKey "code" ownProps then setKey "code" (jsGet "code" ownProps) em else em

/-- `typeof x === 'string'` refinement. -/
def asString : JSValue → Option String
  | JSValue.str s => some s
  | _ => none

/-- `serializeError(error)`, branch for branch: native errors (recursing into a
truthy `cause`), strings, non-null objects, then everything else via
`String(error)`. -/
def serializeError (parseStack : Option String → List StructuredStackFrame)
    (jsonStringify : JSValue → String) (jsString : JSValue → String) :
    JSValue → StructuredException
  | JSValue.error name message stack (some c) ownProps =>
      StructuredException.mk name message (some (parseStack stack)) (some "javascript")
        (if c.truthy then some (serializeError parseStack jsonStringify jsString c) else none)
        (if (errorMetadata ownProps).length ≠ 0 then some (errorMetadata ownProps) else none)
        stack
  | JSValue.error name message stack none ownProps =>
      StructuredException.mk name message (some (parseStack stack)) (some "javascript")
        none
        (if (errorMetadata ownProps).length ≠ 0 then some (errorMetadata ownProps) else none)
        stack
  | JSValue.str s =>
      StructuredException.mk "Error" s none (some "javascript") none none none
  | JSValue.obj props =>
      StructuredException.mk
        (match asString (jsGet "type" props) with
         | some t => t
         | none =>
             match asString (jsGet "name" props) with
             | some n => n
             | none => "Error")
        (match asString (jsGet "message" props) with
         | some m => m
         | none => jsonStringify (JSValue.obj props))
        none (some "javascript") none (some props) none
  | v =>
      StructuredException.mk "Error" (jsString v) none (some "javascript") none none none

/-- A captured `Error` object in a heap: JavaScript objects have identity and
may reference each other, so `cause` is a reference (an address into the heap)
and cyclic graphs such as `e.cause = e` are expressible — unlike in the
inductive `JSValue` tree model, which covers exactly the acyclic graphs. -/
structure HeapErr where
  name : String
  message : String
  stack : Option String
  cause : Option Nat
  ownProps : List (String × JSValue)

/-- The `Error` branch of `serializeError` on a heap of `Error` nodes, with
`fuel` bounding the recursion depth: `none` means the recursion has not
returned within `fuel` nested calls, so `∀ fuel, ... = none` says the
recursion never returns (in JavaScript: unbounded recursion aborting in a
stack-overflow `RangeError` instead of a result).  An `Error` object is always
truthy, so a present `cause` reference always recurses, as in the source. -/
def serializeErrorHeap (parseStack : Option String → List StructuredStackFrame)
    (heap : List HeapErr) : Nat → Nat → Option StructuredException
  | 0, _ => none
  | fuel + 1, addr =>
      match heap[addr]? with
      | none => none
      | some e =>
          match e.cause with
          | none =>
              some (StructuredException.mk e.name e.message (some (parseStack e.stack))
                (some "javascript") none
                (if (errorMetadata e.ownProps).length ≠ 0 then some (errorMetadata e.ownProps)
                 else none)
                e.stack)
          | some caddr =>
              (serializeErrorHeap parseStack heap fuel caddr).map fun ce =>
                StructuredException.mk e.name e.message (some (parseStack e.stack))
                  (some "javascript") (some ce)
                  (if (errorMetadata e.ownProps).length ≠ 0 then some (errorMetadata e.ownProps)
                   else none)
                  e.stack

/-! ## Theorems -/

/-! ### Circuit breaker lemmas -/

theorem applyFailures_nil (cb : CircuitBreaker) : applyFailures [] cb = cb := rfl

theorem applyFailures_cons (t : Int) (ts : List Int) (cb : CircuitBreaker) :
    applyFailures (t :: ts) cb = applyFailures ts (CircuitBreaker.recordFailure t cb) := rfl

theorem recordFailure_threshold (now : Int) (cb : CircuitBreaker) :
    (CircuitBreaker.recordFailure now cb).threshold = cb.threshold := rfl

theorem applyFailures_threshold (ts : List Int) (cb : CircuitBreaker) :
    (applyFailures ts cb).threshold = cb.threshold := by
  induction ts generalizing cb with
  | nil => rfl
  | cons t ts ih => rw [applyFailures_cons, ih, recordFailure_threshold]

theorem applyFailures_resetMs (ts : List Int) (cb : CircuitBreaker) :
    (applyFailures ts cb).resetMs = cb.resetMs := by
  induction ts generalizing cb with
  | nil => rfl
  | cons t ts ih => rw [applyFailures_cons, ih]; rfl

theorem applyFailures_failureCount (ts : List Int) (cb : CircuitBreaker) :
    (applyFailures ts cb).failureCount = cb.failureCount + ts.length := by
  induction ts generalizing cb with
  | nil => rfl
  | cons t ts ih =>
      rw [applyFailures_cons, ih]
      simp only [CircuitBreaker.recordFailure, List.length_cons]
      omega

theorem applyFailures_lastFailureTime (ts : List Int) (cb : CircuitBreaker) (t : Int)
    (h : ts.getLast? = some t) :
    (applyFailures ts cb).lastFailureTime = some t := by
  induction ts generalizing cb with
  | nil => simp at h
  | cons x ts ih =>
      cases ts with
      | nil =>
          simp only [List.getLast?_singleton, Option.some.injEq] at h
          subst h
          rfl
      | cons y ys =>
          rw [applyFailures_cons]
          exact ih _ (by simpa [List.getLast?_cons_cons] using h)

theorem applyFailures_state_open (ts : List Int) (cb : CircuitBreaker) (hne : ts ≠ [])
    (h : cb.threshold ≤ cb.failureCount + ts.length) :
    (applyFailures ts cb).state = CircuitState.OPEN := by
  induction ts generalizing cb with
  | nil => exact absurd rfl hne
  | cons t ts ih =>
      cases ts with
      | nil =>
          simp only [applyFailures_cons, applyFailures_nil, CircuitBreaker.recordFailure]
          simp only [List.length_cons, List.length_nil] at h
          rw [if_pos (by omega)]
      | cons y ys =>
          rw [applyFailures_cons]
          refine ih _ (by simp) ?_
          simp only [CircuitBreaker.recordFailure, List.length_cons] at h ⊢
          omega

theorem canAttempt_open_denied (cb : CircuitBreaker) (now t : Int)
    (hs : cb.state = CircuitState.OPEN) (hl : cb.lastFailureTime = some t)
    (h : now - t < cb.resetMs) :
    CircuitBreaker.canAttempt now cb = (false, cb) := by
  cases cb with
  | mk threshold resetMs state failureCount lastFailureTime =>
      simp only at hs hl h
      subst hs; subst hl
      simp only [CircuitBreaker.canAttempt]
      rw [if_neg (by omega)]

theorem canAttempt_open_granted (cb : CircuitBreaker) (now t : Int)
    (hs : cb.state = CircuitState.OPEN) (hl : cb.lastFailureTime = some t)
    (ht : t ≠ 0) (h : cb.resetMs ≤ now - t) :
    CircuitBreaker.canAttempt now cb = (true, { cb with state := CircuitState.HALF_OPEN }) := by
  cases cb with
  | mk threshold resetMs state failureCount lastFailureTime =>
      simp only at hs hl h
      subst hs; subst hl
      simp only [CircuitBreaker.canAttempt]
      rw [if_pos ⟨ht, h⟩]

theorem getState_eq_open (cb : CircuitBreaker) (h : cb.state = CircuitState.OPEN) :
    cb.getState = "OPEN" := by
  simp [CircuitBreaker.getState, h]

/-- C1: Circuit breaker lifecycle: a fresh breaker with the given `threshold ≥ 1`
and `resetMs`, after exactly `threshold` consecutive `recordFailure()` calls at times
`ts` (last failure at `tlast > 0`), reports `getState() = "OPEN"`; while less than
`resetMs` has elapsed (`now1`), `canAttempt()` returns `false` and the state stays
`"OPEN"`; once at least `resetMs` has elapsed (`now2`), `canAttempt()` returns `true`
and the state becomes `"HALF_OPEN"`; a subsequent `recordSuccess()` yields `"CLOSED"`
with the failure counter reset to 0. -/
theorem circuit_breaker_lifecycle (threshold : Nat) (resetMs : Int) (ts : List Int)
    (tlast now1 now2 : Int)
    (hth : 1 ≤ threshold) (hlen : ts.length = threshold)
    (hlast : ts.getLast? = some tlast) (hpos : 0 < tlast)
    (h1 : now1 - tlast < resetMs) (h2 : resetMs ≤ now2 - tlast) :
    (applyFailures ts (mkBreaker threshold resetMs)).getState = "OPEN"
    ∧ (CircuitBreaker.canAttempt now1 (applyFailures ts (mkBreaker threshold resetMs))).1 = false
    ∧ ((CircuitBreaker.canAttempt now1 (applyFailures ts (mkBreaker threshold resetMs))).2).getState
        = "OPEN"
    ∧ (CircuitBreaker.canAttempt now2 (applyFailures ts (mkBreaker threshold resetMs))).1 = true
    ∧ ((CircuitBreaker.canAttempt now2 (applyFailures ts (mkBreaker threshold resetMs))).2).getState
        = "HALF_OPEN"
    ∧ (((CircuitBreaker.canAttempt now2 (applyFailures ts (mkBreaker threshold resetMs))).2).recordSuccess).getState
        = "CLOSED"
    ∧ (((CircuitBreaker.canAttempt now2 (applyFailures ts (mkBreaker threshold resetMs))).2).recordSuccess).failureCount
        = 0 := by
  have hne : ts ≠ [] := by
    intro h
    rw [h] at hlen
    simp at hlen
    omega
  have hopen : (applyFailures ts (mkBreaker threshold resetMs)).state = CircuitState.OPEN := by
    apply applyFailures_state_open ts _ hne
    simp [mkBreaker, hlen]
  have hlt : (applyFailures ts (mkBreaker threshold resetMs)).lastFailureTime = some tlast :=
    applyFailures_lastFailureTime ts _ tlast hlast
  have hreset : (applyFailures ts (mkBreaker threshold resetMs)).resetMs = resetMs :=
    applyFailures_resetMs ts _
  have hdenied := canAttempt_open_denied (applyFailures ts (mkBreaker threshold resetMs))
    now1 tlast hopen hlt (by rw [hreset]; exact h1)
  have hgranted := canAttempt_open_granted (applyFailures ts (mkBreaker threshold resetMs))
    now2 tlast hopen hlt (by omega) (by rw [hreset]; exact h2)
  refine ⟨getState_eq_open _ hopen, ?_, ?_, ?_, ?_, ?_, ?_⟩
  · rw [hdenied]
  · rw [hdenied]; exact getState_eq_open _ hopen
  · rw [hgranted]
  · rw [hgranted]; simp [CircuitBreaker.getState]
  · rw [hgranted]; simp [CircuitBreaker.recordSuccess, CircuitBreaker.getState]
  · rw [hgranted]; simp [CircuitBreaker.recordSuccess]

/-- Witness for C1: threshold 3, resetMs 1000, failures at times 5, 6, 7;
denied at time 500, granted at time 1007. -/
theorem circuit_breaker_lifecycle_witness :
    (applyFailures [5, 6, 7] (mkBreaker 3 1000)).getState = "OPEN"
    ∧ (CircuitBreaker.canAttempt 500 (applyFailures [5, 6, 7] (mkBreaker 3 1000))).1 = false
    ∧ ((CircuitBreaker.canAttempt 500 (applyFailures [5, 6, 7] (mkBreaker 3 1000))).2).getState
        = "OPEN"
    ∧ (CircuitBreaker.canAttempt 1007 (applyFailures [5, 6, 7] (mkBreaker 3 1000))).1 = true
    ∧ ((CircuitBreaker.canAttempt 1007 (applyFailures [5, 6, 7] (mkBreaker 3 1000))).2).getState
        = "HALF_OPEN"
    ∧ (((CircuitBreaker.canAttempt 1007 (applyFailures [5, 6, 7] (mkBreaker 3 1000))).2).recordSuccess).getState
        = "CLOSED"
    ∧ (((CircuitBreaker.canAttempt 1007 (applyFailures [5, 6, 7] (mkBreaker 3 1000))).2).recordSuccess).failureCount
        = 0 :=
  circuit_breaker_lifecycle 3 1000 [5, 6, 7] 7 500 1007 (by decide) (by decide)
    (by decide) (by decide) (by decide) (by decide)

/-! ### Circuit breaker reachability invariant (C4) -/

theorem step_preserves_inv (cb : CircuitBreaker) (op : CBOp)
    (h : cb.state ≠ CircuitState.CLOSED → cb.threshold ≤ cb.failureCount) :
    (cb.step op).state ≠ CircuitState.CLOSED
      → (cb.step op).threshold ≤ (cb.step op).failureCount := by
  cases op with
  | success => intro hs; exact absurd rfl hs
  | failure now =>
      intro hs
      simp only [CircuitBreaker.step, CircuitBreaker.recordFailure] at hs ⊢
      by_cases hc : cb.threshold ≤ cb.failureCount + 1
      · exact hc
      · rw [if_neg hc] at hs
        have := h hs
        omega
  | attempt now =>
      intro hs
      simp only [CircuitBreaker.step] at hs ⊢
      cases cb with
      | mk threshold resetMs state failureCount lastFailureTime =>
          cases state with
          | CLOSED => exact h hs
          | HALF_OPEN => exact h (by simp)
          | OPEN =>
              have hth : threshold ≤ failureCount := h (by simp)
              cases lastFailureTime with
              | none => exact hth
              | some t =>
                  simp only [CircuitBreaker.canAttempt]
                  split
                  · exact hth
                  · exact hth

theorem foldl_step_inv (ops : List CBOp) (cb : CircuitBreaker)
    (h : cb.state ≠ CircuitState.CLOSED → cb.threshold ≤ cb.failureCount) :
    (ops.foldl CircuitBreaker.step cb).state ≠ CircuitState.CLOSED
      → (ops.foldl CircuitBreaker.step cb).threshold
          ≤ (ops.foldl CircuitBreaker.step cb).failureCount := by
  induction ops generalizing cb with
  | nil => exact h
  | cons op ops ih => exact ih _ (step_preserves_inv cb op h)

theorem reachable_inv (cb : CircuitBreaker) (h : ReachableCB cb) :
    cb.state ≠ CircuitState.CLOSED → cb.threshold ≤ cb.failureCount := by
  obtain ⟨threshold, resetMs, ops, rfl⟩ := h
  exact foldl_step_inv ops (mkBreaker threshold resetMs) (fun hs => absurd rfl hs)

/-- C4: In every reachable breaker state that is `HALF_OPEN`, a single
`recordFailure()` transitions the state back to `OPEN`, for every configured
`threshold ≥ 1`. -/
theorem halfOpen_failure_reopens (cb : CircuitBreaker) (now : Int)
    (hreach : ReachableCB cb) (_hth : 1 ≤ cb.threshold)
    (hs : cb.state = CircuitState.HALF_OPEN) :
    (CircuitBreaker.recordFailure now cb).state = CircuitState.OPEN := by
  have hinv : cb.threshold ≤ cb.failureCount :=
    reachable_inv cb hreach (by rw [hs]; simp)
  simp only [CircuitBreaker.recordFailure]
  rw [if_pos (by omega)]

/-- Witness for C4: a breaker with threshold 1, resetMs 5 reaches `HALF_OPEN`
via one failure at time 10 and a `canAttempt` probe at time 100; recording a
failure at time 200 reopens it. -/
theorem halfOpen_failure_reopens_witness :
    (CircuitBreaker.recordFailure 200
      (([CBOp.failure 10, CBOp.attempt 100]).foldl CircuitBreaker.step (mkBreaker 1 5))).state
      = CircuitState.OPEN :=
  halfOpen_failure_reopens _ 200 ⟨1, 5, [CBOp.failure 10, CBOp.attempt 100], rfl⟩
    (by decide) (by decide)

/-! ### W3C trace context lemmas (C7) -/

theorem dropWhile_cons_of_false {p : Char → Bool} {c : Char} {l : List Char}
    (h : p c = false) : (c :: l).dropWhile p = c :: l := by
  simp [List.dropWhile_cons, h]

theorem hex_not_ws (c : Char) (h : isLowerHexDigit c = true) : isJsWhitespace c = false := by
  cases hws : isJsWhitespace c with
  | false => rfl
  | true =>
      exfalso
      simp only [isJsWhitespace, Bool.or_eq_true, beq_iff_eq] at hws
      rcases hws with ((((rfl | rfl) | rfl) | rfl) | rfl) | rfl <;> exact absurd h (by decide)

theorem trimChars_eq_self_of_all (l : List Char)
    (h : ∀ c ∈ l, isJsWhitespace c = false) : trimChars l = l := by
  unfold trimChars
  have h1 : l.dropWhile isJsWhitespace = l := by
    cases l with
    | nil => rfl
    | cons c ls => exact dropWhile_cons_of_false (h c (List.mem_cons_self c ls))
  rw [h1]
  have h2 : l.reverse.dropWhile isJsWhitespace = l.reverse := by
    cases hrev : l.reverse with
    | nil => rfl
    | cons c ls =>
        refine dropWhile_cons_of_false (h c ?_)
        have hm : c ∈ l.reverse := by rw [hrev]; exact List.mem_cons_self c ls
        exact List.mem_reverse.mp hm
  rw [h2, List.reverse_reverse]

theorem readHex_exact (h rest : List Char) (hhex : h.all isLowerHexDigit = true) :
    readHex h.length (h ++ rest) = some (h, rest) := by
  induction h with
  | nil => rfl
  | cons c h ih =>
      simp only [List.all_cons, Bool.and_eq_true] at hhex
      simp only [List.length_cons, List.cons_append, readHex, hhex.1, if_true, List.append_eq]
      rw [ih hhex.2]

theorem parse_create_aux (t s fl : List Char) (bres : Bool)
    (ht : t.length = 32) (hth : t.all isLowerHexDigit = true)
    (hs : s.length = 16) (hsh : s.all isLowerHexDigit = true)
    (hfl : fl.all isLowerHexDigit = true) (hfl2 : fl.length = 2)
    (hb : decide (hexVal fl &&& 1 = 1) = bres) :
    parseTraceparentTrimmed ('0' :: '0' :: '-' :: (t ++ '-' :: (s ++ '-' :: fl)))
      = some { version := ['0', '0'], traceId := t, parentSpanId := s, sampled := bres } := by
  have e1 : readHex 2 (['0', '0'] ++ ('-' :: (t ++ '-' :: (s ++ '-' :: fl))))
      = some (['0', '0'], '-' :: (t ++ '-' :: (s ++ '-' :: fl))) :=
    readHex_exact ['0', '0'] _ (by decide)
  have e2 : readHex 32 (t ++ '-' :: (s ++ '-' :: fl)) = some (t, '-' :: (s ++ '-' :: fl)) := by
    rw [← ht]; exact readHex_exact t _ hth
  have e3 : readHex 16 (s ++ '-' :: fl) = some (s, '-' :: fl) := by
    rw [← hs]; exact readHex_exact s _ hsh
  have e4 : readHex 2 fl = some (fl, []) := by
    have h := readHex_exact fl [] hfl
    rw [List.append_nil] at h
    rw [← hfl2]
    exact h
  have estep : ('0' :: '0' :: '-' :: (t ++ '-' :: (s ++ '-' :: fl)))
      = ['0', '0'] ++ ('-' :: (t ++ '-' :: (s ++ '-' :: fl))) := rfl
  rw [estep]
  simp only [parseTraceparentTrimmed, e1, expectDash, e2, e3, e4, hb]
  simp

/-- C7: Round-trip: for every valid 32-hex-char trace id `t`, valid 16-hex-char
span id `s`, and boolean `b`, `parseTraceparent (createTraceparent t s b)` is
`some` of a context with version `"00"`, traceId `t`, parentSpanId `s`, and
sampled flag `b`. -/
theorem traceparent_roundtrip (t s : List Char) (b : Bool)
    (ht : t.length = 32) (hth : t.all isLowerHexDigit = true)
    (hs : s.length = 16) (hsh : s.all isLowerHexDigit = true) :
    parseTraceparent (createTraceparent t s b)
      = some { version := ['0', '0'], traceId := t, parentSpanId := s, sampled := b } := by
  have hnws : ∀ c ∈ createTraceparent t s b, isJsWhitespace c = false := by
    intro c hc
    simp only [createTraceparent, List.mem_cons, List.mem_append] at hc
    rcases hc with rfl | rfl | rfl | hc | rfl | hc | rfl | hc
    · decide
    · decide
    · decide
    · exact hex_not_ws c (List.all_eq_true.mp hth c hc)
    · decide
    · exact hex_not_ws c (List.all_eq_true.mp hsh c hc)
    · decide
    · cases b with
      | true =>
          simp only [Bool.cond_true, List.mem_cons, List.not_mem_nil, or_false] at hc
          rcases hc with rfl | rfl <;> decide
      | false =>
          simp only [Bool.cond_false, List.mem_cons, List.not_mem_nil, or_false] at hc
          rcases hc with rfl | rfl <;> decide
  rw [parseTraceparent, trimChars_eq_self_of_all _ hnws]
  cases b with
  | true =>
      exact parse_create_aux t s ['0', '1'] true ht hth hs hsh (by decide) (by decide) (by decide)
  | false =>
      exact parse_create_aux t s ['0', '0'] false ht hth hs hsh (by decide) (by decide) (by decide)

/-- Witness for C7: the repository's own test vector. -/
theorem traceparent_roundtrip_witness :
    parseTraceparent
        (createTraceparent ("4bf92f3577b34da6a3ce929d0e0e4736".toList)
          ("00f067aa0ba902b7".toList) true)
      = some { version := ['0', '0'],
               traceId := "4bf92f3577b34da6a3ce929d0e0e4736".toList,
               parentSpanId := "00f067aa0ba902b7".toList, sampled := true } :=
  traceparent_roundtrip _ _ true (by decide) (by decide) (by decide) (by decide)

/-! ### Batching transport lemmas (C2, C3, C5, C9) -/

theorem sendLogs_single_no_flush {L S : Type} (p : BatchParams) (innerOk : Nat → Bool)
    (now : Int) (ys : List L) (st : BTState L S)
    (hcap : p.batchSize ≤ p.maxBufferSize)
    (h : st.logBuffer.length + ys.length < p.batchSize) :
    ys.foldl (fun st e => BatchTransport.sendLogs p innerOk now [e] st) st
      = { st with logBuffer := st.logBuffer ++ ys } := by
  induction ys generalizing st with
  | nil => simp
  | cons y ys ih =>
      rw [List.foldl_cons]
      simp only [List.length_cons] at h
      have hstep : BatchTransport.sendLogs p innerOk now [y] st
          = { st with logBuffer := st.logBuffer ++ [y] } := by
        have hbuf : bufferAppend p.maxBufferSize st.logBuffer y = st.logBuffer ++ [y] := by
          unfold bufferAppend; rw [if_neg (by omega)]
        unfold BatchTransport.sendLogs
        simp only [List.foldl_cons, List.foldl_nil, hbuf]
        rw [if_neg (by simp only [List.length_append, List.length_singleton]; omega)]
      rw [hstep]
      rw [ih _ (by simp only [List.length_append, List.length_singleton]; omega)]
      simp

/-- C2: With `1 ≤ batchSize ≤ maxBufferSize`: after any `batchSize - 1`
single-log appends to a fresh transport, the inner transport has never been
invoked and all entries are buffered in append order; the `batchSize`-th append
(with a first-attempt-successful inner transport) invokes the inner `sendLogs`
exactly once, with the batch holding every queued entry in append order, and
empties the buffer. -/
theorem batch_flush_on_batchSize {L S : Type} (p : BatchParams) (innerOk : Nat → Bool)
    (now : Int) (ys : List L) (x : L)
    (hbs : 1 ≤ p.batchSize) (hcap : p.batchSize ≤ p.maxBufferSize)
    (hlen : ys.length = p.batchSize - 1) (hok : innerOk 0 = true) :
    (ys.foldl (fun st e => BatchTransport.sendLogs p innerOk now [e] st)
        (BTState.init (L := L) (S := S) p)).innerLogCalls = []
    ∧ (ys.foldl (fun st e => BatchTransport.sendLogs p innerOk now [e] st)
        (BTState.init (L := L) (S := S) p)).innerSpanCalls = []
    ∧ (ys.foldl (fun st e => BatchTransport.sendLogs p innerOk now [e] st)
        (BTState.init (L := L) (S := S) p)).logBuffer = ys
    ∧ (BatchTransport.sendLogs p innerOk now [x]
        (ys.foldl (fun st e => BatchTransport.sendLogs p innerOk now [e] st)
          (BTState.init (L := L) (S := S) p))).innerLogCalls = [ys ++ [x]]
    ∧ (BatchTransport.sendLogs p innerOk now [x]
        (ys.foldl (fun st e => BatchTransport.sendLogs p innerOk now [e] st)
          (BTState.init (L := L) (S := S) p))).logBuffer = [] := by
  have hfold := sendLogs_single_no_flush p innerOk now ys (BTState.init (L := L) (S := S) p)
    hcap (by simp only [BTState.init]; simp only [List.length_nil]; omega)
  rw [hfold]
  simp only [BTState.init, List.nil_append]
  have hstep : BatchTransport.sendLogs p innerOk now [x]
      ({ logBuffer := ys, spanBuffer := [], breaker := mkBreaker p.cbThreshold p.cbResetMs,
         innerLogCalls := [], innerSpanCalls := [] } : BTState L S)
      = { logBuffer := [], spanBuffer := [],
          breaker := (mkBreaker p.cbThreshold p.cbResetMs).recordSuccess,
          innerLogCalls := [ys ++ [x]], innerSpanCalls := [] } := by
    have hbuf : bufferAppend p.maxBufferSize ys x = ys ++ [x] := by
      unfold bufferAppend; rw [if_neg (by omega)]
    unfold BatchTransport.sendLogs
    simp only [List.foldl_cons, List.foldl_nil, hbuf]
    rw [if_pos (by simp only [List.length_append, List.length_singleton]; omega)]
    unfold BatchTransport.flush
    simp only [CircuitBreaker.canAttempt, mkBreaker]
    have hpos : 0 < (ys ++ [x]).length := by
      simp only [List.length_append, List.length_singleton]
      omega
    rw [if_pos hpos]
    have hnegspan : ¬ (0 < ([] : List S).length ∧ p.hasSendSpans = true) := by simp
    rw [if_neg hnegspan]
    simp only [sendLogsRetryLoop, BTState.invocations, List.length_nil, Nat.add_zero, hok,
      if_true, List.nil_append, CircuitBreaker.recordSuccess]
  rw [hstep]
  exact ⟨trivial, trivial, trivial, rfl, rfl⟩

/-- Witness for C2: batchSize 3, two singleton appends then the third. -/
theorem batch_flush_on_batchSize_witness :
    (([1, 2] : List Nat).foldl
        (fun st e => BatchTransport.sendLogs batchThreeParams (fun _ => true) 0 [e] st)
        (BTState.init (L := Nat) (S := Nat) batchThreeParams)).innerLogCalls = []
    ∧ (([1, 2] : List Nat).foldl
        (fun st e => BatchTransport.sendLogs batchThreeParams (fun _ => true) 0 [e] st)
        (BTState.init (L := Nat) (S := Nat) batchThreeParams)).innerSpanCalls = []
    ∧ (([1, 2] : List Nat).foldl
        (fun st e => BatchTransport.sendLogs batchThreeParams (fun _ => true) 0 [e] st)
        (BTState.init (L := Nat) (S := Nat) batchThreeParams)).logBuffer = [1, 2]
    ∧ (BatchTransport.sendLogs batchThreeParams (fun _ => true) 0 [3]
        (([1, 2] : List Nat).foldl
          (fun st e => BatchTransport.sendLogs batchThreeParams (fun _ => true) 0 [e] st)
          (BTState.init (L := Nat) (S := Nat) batchThreeParams))).innerLogCalls = [[1, 2, 3]]
    ∧ (BatchTransport.sendLogs batchThreeParams (fun _ => true) 0 [3]
        (([1, 2] : List Nat).foldl
          (fun st e => BatchTransport.sendLogs batchThreeParams (fun _ => true) 0 [e] st)
          (BTState.init (L := Nat) (S := Nat) batchThreeParams))).logBuffer = [] :=
  batch_flush_on_batchSize batchThreeParams (fun _ => true) 0 [1, 2] 3
    (by decide) (by decide) (by decide) rfl

theorem retryLoop_all_fail {L S : Type} (innerOk : Nat → Bool) (now : Int) (batch : List L)
    (hfail : ∀ n, innerOk n = false) (k : Nat) (st : BTState L S) :
    sendLogsRetryLoop innerOk now batch k st
      = { st with innerLogCalls := st.innerLogCalls ++ List.replicate k batch,
                  breaker := CircuitBreaker.recordFailure now st.breaker } := by
  induction k generalizing st with
  | zero => simp [sendLogsRetryLoop]
  | succ k ih =>
      simp only [sendLogsRetryLoop, hfail, Bool.false_eq_true, if_false]
      rw [ih]
      simp [List.replicate_succ]

/-- C3: For every non-empty log batch and an inner send failing on every
invocation, a flush that passes the circuit breaker invokes the inner send
exactly `maxRetries + 1` times (each time with the whole batch), then records
exactly one breaker failure, and drops the batch without re-queueing it; the
model is a total function, so no exception reaches the caller. -/
theorem retry_exhaustion_drops_batch {L S : Type} (p : BatchParams) (innerOk : Nat → Bool)
    (now : Int) (st : BTState L S)
    (hfail : ∀ n, innerOk n = false) (hlogs : st.logBuffer ≠ []) (hspans : st.spanBuffer = [])
    (hatt : (CircuitBreaker.canAttempt now st.breaker).1 = true) :
    BatchTransport.flush p innerOk now st
      = { st with
            logBuffer := [], spanBuffer := [],
            innerLogCalls := st.innerLogCalls ++ List.replicate (p.maxRetries + 1) st.logBuffer,
            breaker :=
              CircuitBreaker.recordFailure now (CircuitBreaker.canAttempt now st.breaker).2 } := by
  unfold BatchTransport.flush
  simp only [hatt, if_true]
  have hpos : 0 < st.logBuffer.length := List.length_pos.mpr hlogs
  rw [if_pos hpos]
  rw [retryLoop_all_fail innerOk now st.logBuffer hfail (p.maxRetries + 1) _]
  rw [hspans]
  have hnegspan : ¬ (0 < ([] : List S).length ∧ p.hasSendSpans = true) := by simp
  rw [if_neg hnegspan]

/-- Witness for C3: `maxRetries = 1` and an always-failing inner transport give
exactly 2 inner attempts, one recorded breaker failure, and a dropped batch. -/
theorem retry_exhaustion_drops_batch_witness :
    BatchTransport.flush
        { batchSize := 100, maxBufferSize := 10000, maxRetries := 1, cbThreshold := 5,
          cbResetMs := 30000, hasSendSpans := true }
        (fun _ => false) 0
        ({ logBuffer := [42], spanBuffer := [], breaker := mkBreaker 5 30000,
           innerLogCalls := [], innerSpanCalls := [] } : BTState Nat Nat)
      = { logBuffer := [], spanBuffer := [],
          breaker := CircuitBreaker.recordFailure 0
            (CircuitBreaker.canAttempt 0 (mkBreaker 5 30000)).2,
          innerLogCalls := [[42], [42]], innerSpanCalls := [] } := by
  rw [retry_exhaustion_drops_batch _ _ 0 _ (fun n => rfl) (by decide) rfl (by decide)]
  decide

theorem sendLogsRetryLoop_spanState {L S : Type} (innerOk : Nat → Bool) (now : Int)
    (batch : List L) (k : Nat) (st : BTState L S) :
    (sendLogsRetryLoop innerOk now batch k st).spanBuffer = st.spanBuffer
    ∧ (sendLogsRetryLoop innerOk now batch k st).innerSpanCalls = st.innerSpanCalls := by
  induction k generalizing st with
  | zero => exact ⟨rfl, rfl⟩
  | succ k ih =>
      simp only [sendLogsRetryLoop]
      split
      · exact ⟨rfl, rfl⟩
      · exact ih _

/-- C9: If the inner transport does not implement `sendSpans`, every flush
that passes the circuit breaker removes all buffered spans and discards them:
no inner span send is attempted (`innerSpanCalls` unchanged), and the whole
resulting state — circuit breaker included — is the same as if the span buffer
had been empty, so neither `recordSuccess` nor `recordFailure` happens on the
spans' behalf. -/
theorem flush_discards_spans_without_sendSpans {L S : Type} (p : BatchParams)
    (innerOk : Nat → Bool) (now : Int) (st : BTState L S)
    (hno : p.hasSendSpans = false)
    (hatt : (CircuitBreaker.canAttempt now st.breaker).1 = true) :
    (BatchTransport.flush p innerOk now st).spanBuffer = []
    ∧ (BatchTransport.flush p innerOk now st).innerSpanCalls = st.innerSpanCalls
    ∧ BatchTransport.flush p innerOk now st
        = BatchTransport.flush p innerOk now { st with spanBuffer := [] } := by
  unfold BatchTransport.flush
  simp only [hatt, if_true, hno]
  have hneg : ¬ (0 < st.spanBuffer.length ∧ false = true) := by simp
  rw [if_neg hneg]
  have hneg2 : ¬ (0 < ([] : List S).length ∧ false = true) := by simp
  rw [if_neg hneg2]
  refine ⟨?_, ?_, ?_⟩
  · split
    · rw [(sendLogsRetryLoop_spanState _ _ _ _ _).1]
    · rfl
  · split
    · rw [(sendLogsRetryLoop_spanState _ _ _ _ _).2]
    · rfl
  · rfl

/-- Witness for C9: a transport whose inner has no `sendSpans`, with one
buffered log and one buffered span. -/
theorem flush_discards_spans_without_sendSpans_witness :
    (BatchTransport.flush
        { batchSize := 100, maxBufferSize := 10000, maxRetries := 3, cbThreshold := 5,
          cbResetMs := 30000, hasSendSpans := false }
        (fun _ => true) 0
        ({ logBuffer := [1], spanBuffer := [7], breaker := mkBreaker 5 30000,
           innerLogCalls := [], innerSpanCalls := [] } : BTState Nat Nat)).spanBuffer = []
    ∧ (BatchTransport.flush
        { batchSize := 100, maxBufferSize := 10000, maxRetries := 3, cbThreshold := 5,
          cbResetMs := 30000, hasSendSpans := false }
        (fun _ => true) 0
        ({ logBuffer := [1], spanBuffer := [7], breaker := mkBreaker 5 30000,
           innerLogCalls := [], innerSpanCalls := [] } : BTState Nat Nat)).innerSpanCalls
      = ({ logBuffer := [1], spanBuffer := [7], breaker := mkBreaker 5 30000,
           innerLogCalls := [], innerSpanCalls := [] } : BTState Nat Nat).innerSpanCalls
    ∧ BatchTransport.flush
        { batchSize := 100, maxBufferSize := 10000, maxRetries := 3, cbThreshold := 5,
          cbResetMs := 30000, hasSendSpans := false }
        (fun _ => true) 0
        ({ logBuffer := [1], spanBuffer := [7], breaker := mkBreaker 5 30000,
           innerLogCalls := [], innerSpanCalls := [] } : BTState Nat Nat)
      = BatchTransport.flush
          { batchSize := 100, maxBufferSize := 10000, maxRetries := 3, cbThreshold := 5,
            cbResetMs := 30000, hasSendSpans := false }
          (fun _ => true) 0
          { ({ logBuffer := [1], spanBuffer := [7], breaker := mkBreaker 5 30000,
               innerLogCalls := [], innerSpanCalls := [] } : BTState Nat Nat) with
              spanBuffer := [] } :=
  flush_discards_spans_without_sendSpans _ _ 0 _ rfl (by decide)

/-- C5: Drop-newest buffering: an item arriving at a buffer already holding
`maxBufferSize` items is dropped with the buffer unchanged, an item arriving at
a buffer below capacity is appended; and with `maxBufferSize = 2`, sending the
logs `[a, b, c]` and then flushing delivers exactly the batch `[a, b]` to the
inner transport, with `c` dropped. -/
theorem buffer_drop_newest {L S : Type} (mbs : Nat) (fullBuf freeBuf : List L)
    (x y : L) (a b c : L)
    (hfull : fullBuf.length = mbs) (hfree : freeBuf.length < mbs) :
    bufferAppend mbs fullBuf x = fullBuf
    ∧ bufferAppend mbs freeBuf y = freeBuf ++ [y]
    ∧ (BatchTransport.flush dropNewestParams (fun _ => true) 0
        (BatchTransport.sendLogs (S := S) dropNewestParams (fun _ => true) 0 [a, b, c]
          (BTState.init dropNewestParams))).innerLogCalls = [[a, b]] := by
  refine ⟨?_, ?_, ?_⟩
  · unfold bufferAppend
    rw [if_pos (le_of_eq hfull.symm)]
  · unfold bufferAppend
    rw [if_neg (by omega)]
  · rfl

/-- Witness for C5: capacity 2, full buffer `[9,9]`, free buffer `[8]`, and the
concrete `a, b, c = 1, 2, 3` run. -/
theorem buffer_drop_newest_witness :
    bufferAppend 2 [9, 9] (7 : Nat) = [9, 9]
    ∧ bufferAppend 2 [8] (6 : Nat) = [8] ++ [6]
    ∧ (BatchTransport.flush dropNewestParams (fun _ => true) 0
        (BatchTransport.sendLogs (S := Nat) dropNewestParams (fun _ => true) 0 [1, 2, 3]
          (BTState.init dropNewestParams))).innerLogCalls = [[1, 2]] :=
  buffer_drop_newest 2 [9, 9] [8] 7 6 1 2 3 (by decide) (by decide)

/-! ### Breadcrumb buffer (C6) -/

theorem breadcrumb_foldl_maxSize {β : Type} (xs : List β) (buf : BreadcrumbBuffer β) :
    (xs.foldl BreadcrumbBuffer.add buf).maxSize = buf.maxSize := by
  induction xs generalizing buf with
  | nil => rfl
  | cons x xs ih => rw [List.foldl_cons, ih]; rfl

/-- C6 counterexample: With capacity `maxSize = 0`, adding one breadcrumb to the
(nominally full) empty buffer leaves one stored entry, so `getAll` does not return
the most recent `maxSize = 0` entries of the insertion sequence. -/
theorem breadcrumb_capacity_zero_counterexample :
    ¬ ((([0] : List Nat).foldl BreadcrumbBuffer.add (BreadcrumbBuffer.empty 0)).getAll
        = ([0] : List Nat).drop (([0] : List Nat).length - 0)) := by
  decide

theorem breadcrumb_fold_drop {β : Type} (maxSize : Nat) (hms : 1 ≤ maxSize) (xs : List β) :
    ((xs.foldl BreadcrumbBuffer.add (BreadcrumbBuffer.empty maxSize)).getAll)
      = xs.drop (xs.length - maxSize) := by
  induction xs using List.reverseRecOn with
  | nil => simp [BreadcrumbBuffer.empty, BreadcrumbBuffer.getAll]
  | append_singleton xs x ih =>
      rw [List.foldl_append, List.foldl_cons, List.foldl_nil]
      have hmax : (xs.foldl BreadcrumbBuffer.add (BreadcrumbBuffer.empty maxSize)).maxSize
          = maxSize := breadcrumb_foldl_maxSize xs _
      have hbuf : (xs.foldl BreadcrumbBuffer.add (BreadcrumbBuffer.empty maxSize)).buffer
          = xs.drop (xs.length - maxSize) := ih
      simp only [BreadcrumbBuffer.add, BreadcrumbBuffer.getAll, hmax, hbuf]
      rw [List.length_drop]
      by_cases hc : maxSize ≤ xs.length
      · rw [if_pos (by omega), List.tail_drop]
        have hidx : (xs ++ [x]).length - maxSize = (xs.length - maxSize) + 1 := by
          simp only [List.length_append, List.length_singleton]
          omega
        rw [hidx, List.drop_append_eq_append_drop]
        have : xs.length - maxSize + 1 - xs.length = 0 := by omega
        rw [this, List.drop_zero]
      · rw [if_neg (by omega)]
        have h0 : xs.length - maxSize = 0 := by omega
        have hidx : (xs ++ [x]).length - maxSize = 0 := by
          simp only [List.length_append, List.length_singleton]
          omega
        rw [h0, List.drop_zero, hidx, List.drop_zero]

/-- C6 amended: For every capacity `maxSize ≥ 1`: an `add()` on a buffer whose
length equals its capacity evicts the oldest entry before appending the new one, and
starting from an empty buffer, after appending any sequence `xs` the buffer holds
exactly the most recent `maxSize` entries in insertion order; in particular for
capacity 3, appending `a, b, c, d` leaves `[b, c, d]`. -/
theorem breadcrumb_drop_oldest {β : Type} (maxSize : Nat) (full : BreadcrumbBuffer β)
    (x : β) (xs : List β) (a b c d : β)
    (hms : 1 ≤ maxSize) (hfull : full.buffer.length = full.maxSize) :
    (full.add x).getAll = full.getAll.tail ++ [x]
    ∧ ((xs.foldl BreadcrumbBuffer.add (BreadcrumbBuffer.empty maxSize)).getAll)
        = xs.drop (xs.length - maxSize)
    ∧ (([a, b, c, d].foldl BreadcrumbBuffer.add (BreadcrumbBuffer.empty 3)).getAll)
        = [b, c, d] := by
  refine ⟨?_, breadcrumb_fold_drop maxSize hms xs, ?_⟩
  · simp only [BreadcrumbBuffer.add, BreadcrumbBuffer.getAll]
    rw [if_pos (le_of_eq hfull.symm)]
  · rw [breadcrumb_fold_drop 3 (by omega) [a, b, c, d]]
    rfl

/-- Witness for C6 (amended): capacity 3, a full buffer `[1,2,3]` plus `4`,
and the concrete `a,b,c,d = 1,2,3,4` run. -/
theorem breadcrumb_drop_oldest_witness :
    ((BreadcrumbBuffer.mk 3 [1, 2, 3]).add (4 : Nat)).getAll
        = (BreadcrumbBuffer.mk 3 [1, 2, 3] : BreadcrumbBuffer Nat).getAll.tail ++ [4]
    ∧ ((([1, 2, 3, 4] : List Nat).foldl BreadcrumbBuffer.add (BreadcrumbBuffer.empty 3)).getAll)
        = ([1, 2, 3, 4] : List Nat).drop (([1, 2, 3, 4] : List Nat).length - 3)
    ∧ ((([1, 2, 3, 4] : List Nat).foldl BreadcrumbBuffer.add (BreadcrumbBuffer.empty 3)).getAll)
        = [2, 3, 4] :=
  breadcrumb_drop_oldest 3 (BreadcrumbBuffer.mk 3 [1, 2, 3]) 4 [1, 2, 3, 4] 1 2 3 4
    (by decide) (by decide)

/-! ### Hub without a client (C8) -/

/-- C8 counterexample: With no client initialised, `hub.addBreadcrumb` is
not a no-op: it changes the hub's observable state by appending to the global
scope's breadcrumb buffer (visible through `getScope().getBreadcrumbs()`). -/
theorem hub_addBreadcrumb_not_noop :
    Hub.addBreadcrumb (fun (c : Unit) (_ : Nat) => c)
        ({ client := none,
           globalScope := { traceId := List.replicate 32 'a',
                            breadcrumbs := BreadcrumbBuffer.empty 100 } } : HubState Unit Nat) 5
      ≠ ({ client := none,
           globalScope := { traceId := List.replicate 32 'a',
                            breadcrumbs := BreadcrumbBuffer.empty 100 } } : HubState Unit Nat) := by
  decide

/-- C8 amended: With no client initialised: `captureError` and
`captureLog` leave the hub state entirely unchanged; `addBreadcrumb` touches no
client but does append the breadcrumb to the global scope's bounded buffer, and
that is its only effect; all three are total functions of the state, so none
throws. -/
theorem hub_no_client_behaviour {γ β ε : Type}
    (clientCapture : γ → ε → Scope β → γ) (clientLog : γ → String → String → Scope β → γ)
    (clientAdd : γ → β → γ) (st : HubState γ β) (e : ε) (level message : String) (b : β)
    (h : st.client = none) :
    Hub.captureError clientCapture st e = st
    ∧ Hub.captureLog clientLog st level message = st
    ∧ (Hub.addBreadcrumb clientAdd st b).client = none
    ∧ (Hub.addBreadcrumb clientAdd st b).globalScope = st.globalScope.addBreadcrumb b := by
  refine ⟨?_, ?_, ?_, rfl⟩
  · unfold Hub.captureError
    rw [h]
  · unfold Hub.captureLog
    rw [h]
  · simp [Hub.addBreadcrumb, h]

/-- Witness for C8 (amended): a concrete clientless hub state. -/
theorem hub_no_client_behaviour_witness :
    Hub.captureError (fun (c : Unit) (_ : Nat) _ => c)
        ({ client := none,
           globalScope := { traceId := List.replicate 32 'a',
                            breadcrumbs := BreadcrumbBuffer.empty 100 } } : HubState Unit Nat) 3
      = ({ client := none,
           globalScope := { traceId := List.replicate 32 'a',
                            breadcrumbs := BreadcrumbBuffer.empty 100 } } : HubState Unit Nat)
    ∧ Hub.captureLog (fun (c : Unit) _ _ _ => c)
        ({ client := none,
           globalScope := { traceId := List.replicate 32 'a',
                            breadcrumbs := BreadcrumbBuffer.empty 100 } } : HubState Unit Nat)
        "info" "msg"
      = ({ client := none,
           globalScope := { traceId := List.replicate 32 'a',
                            breadcrumbs := BreadcrumbBuffer.empty 100 } } : HubState Unit Nat)
    ∧ (Hub.addBreadcrumb (fun (c : Unit) (_ : Nat) => c)
        ({ client := none,
           globalScope := { traceId := List.replicate 32 'a',
                            breadcrumbs := BreadcrumbBuffer.empty 100 } } : HubState Unit Nat)
        5).client = none
    ∧ (Hub.addBreadcrumb (fun (c : Unit) (_ : Nat) => c)
        ({ client := none,
           globalScope := { traceId := List.replicate 32 'a',
                            breadcrumbs := BreadcrumbBuffer.empty 100 } } : HubState Unit Nat)
        5).globalScope
      = ({ client := none,
           globalScope := { traceId := List.replicate 32 'a',
                            breadcrumbs := BreadcrumbBuffer.empty 100 } } : HubState Unit Nat).globalScope.addBreadcrumb
          5 :=
  hub_no_client_behaviour _ _ _ _ 3 "info" "msg" 5 rfl

/-! ### Error serializer (C10) -/

theorem serializeError_causeDepth (ps : Option String → List StructuredStackFrame)
    (js : JSValue → String) (ts : JSValue → String) :
    ∀ v : JSValue,
      (serializeError ps js ts v).causeDepth = v.causeDepth
  | JSValue.error n m st (some c) own => by
      simp only [serializeError, JSValue.causeDepth]
      by_cases hc : c.truthy
      · rw [if_pos hc, if_pos hc]
        simp only [StructuredException.causeDepth]
        rw [serializeError_causeDepth ps js ts c]
      · rw [if_neg hc, if_neg hc]
        simp only [StructuredException.causeDepth]
  | JSValue.error n m st none own => rfl
  | JSValue.str s => rfl
  | JSValue.obj props => rfl
  | JSValue.num n => rfl
  | JSValue.bool b => rfl
  | JSValue.null => rfl
  | JSValue.undefined => rfl

/-- Totality of `serializeError` on the acyclic fragment (the inductive
`JSValue` model): every acyclic value is serialized to a structured exception
whose `type` and `message` are strings (enforced by the output type), whose
serialized cause chain has exactly the length of the input's truthy cause
chain, and which on the string branch is exactly `{type: "Error", message: s}`.
This does not extend to cyclic object graphs — see
`serializeError_cyclic_diverges`. -/
theorem serializeError_total (ps : Option String → List StructuredStackFrame)
    (js : JSValue → String) (ts : JSValue → String) (v : JSValue) (s : String) :
    (serializeError ps js ts v).causeDepth = v.causeDepth
    ∧ serializeError ps js ts (JSValue.str s)
        = StructuredException.mk "Error" s none (some "javascript") none none none
    ∧ (serializeError ps js ts (JSValue.str s)).type = "Error"
    ∧ (serializeError ps js ts (JSValue.str s)).message = s :=
  ⟨serializeError_causeDepth ps js ts v, rfl, rfl, rfl⟩

/-- C10: the claim that `serializeError` terminates and returns a structured
exception for every captured value fails on the code at the cyclic error
`e.cause = e` (a value JavaScript permits but the inductive model cannot
express): on the heap model of that input, no recursion budget suffices for
the serialization to return — the source recursion never terminates there,
aborting in a stack-overflow `RangeError`, although the spec (§4.7 arbitrary
input, §7 never-throw capture path) makes totality the clear intent.  The
acyclic fragment is total, per `serializeError_total`. -/
theorem serializeError_cyclic_diverges :
    ∀ fuel : Nat,
      serializeErrorHeap (fun _ => [])
        [{ name := "Error", message := "x", stack := none, cause := some 0, ownProps := [] }]
        fuel 0 = none := by
  intro fuel
  induction fuel with
  | zero => rfl
  | succ fuel ih =>
      simp only [serializeErrorHeap, List.getElem?_cons_zero]
      rw [ih]
      rfl

end Logtide
